import Mathlib

/-!
# go-http-transport-firehose: capture transport and delivery endpoint

A shallow embedding of `transport.go` (`RoundTripper.RoundTrip`) and of
`cmd/firehose-endpoint/main.go` (`parseRequest`, `handleRoot`).

Library calls whose code is not part of the repository (`encoding/json`,
`http.ReadRequest`, `http.DefaultClient.Do`, `httputil.DumpRequestOut`,
`firehose.PutRecord`, `http.StatusText`, `time.Now`) are fields of an
environment record.  The calls that reach the outside world thread an explicit
world state of an arbitrary type `σ`, and every call is appended to a trace, so
that "is never called" is a statement about the trace.
-/

namespace TransportFirehose

/-! ## Data model -/

/-- Go `[]byte`. -/
abbrev Bytes := List (Fin 256)

/-- Go `error` value, identified with the text its `Error()` method returns. -/
structure GoError where
  text : String
deriving DecidableEq, Repr

/-- Go `errors.New`. -/
def errorsNew (text : String) : GoError := ⟨text⟩

/-- Go `http.Header`, a `map[string][]string`, kept as an association list. -/
structure HttpHeader where
  entries : List (String × List String)
deriving DecidableEq, Repr

/-- Go `Header.Get`: the first value stored under the key, `""` when there is none.
The three header names used by the endpoint are already in canonical MIME form, so
the key canonicalisation done by `Get` is the identity on them. -/
def HttpHeader.Get (h : HttpHeader) (key : String) : String :=
  match h.entries.lookup key with
  | some (v :: _) => v
  | _ => ""

/-- Go `Header.Add` on an already canonical key: append the value to the list
stored under the key. -/
def HttpHeader.Add (h : HttpHeader) (key value : String) : HttpHeader :=
  match h.entries.lookup key with
  | some vs => ⟨(key, vs ++ [value]) :: h.entries.filter (fun kv => kv.1 != key)⟩
  | none => ⟨h.entries ++ [(key, [value])]⟩

/-- The fields of Go `http.Request` that the program reads. `URL` is the text
`req.URL` prints as under `%s`. -/
structure Request where
  Method : String
  URL : String
  Proto : String
  ProtoMajor : Int
  ProtoMinor : Int
  Header : HttpHeader
  Body : Bytes
deriving DecidableEq, Repr

/-- The fields of Go `http.Response` that the program reads or writes. -/
structure Response where
  Status : String
  StatusCode : Int
  Proto : String
  ProtoMajor : Int
  ProtoMinor : Int
  Header : HttpHeader
deriving DecidableEq, Repr

/-- Type `Record` of `main.go`: one captured request. -/
structure Record where
  Data : Bytes
deriving DecidableEq, Repr

/-- Type `RequestBody` of `main.go`: the delivery batch envelope. -/
structure RequestBody where
  RequestID : String
  Timestamp : Int
  Records : List Record
deriving DecidableEq, Repr

/-- Type `ResponseBody` of `main.go`: the response envelope. -/
structure ResponseBody where
  RequestID : String
  Timestamp : Int
  ErrorMessage : String
deriving DecidableEq, Repr

/-- Field `timestamp` carries the tag `omitempty`: it is written to the JSON
object exactly when it is not the zero value. -/
def ResponseBody.timestampPresent (b : ResponseBody) : Bool :=
  b.Timestamp != 0

/-- Field `errorMessage` carries the tag `omitempty`. -/
def ResponseBody.errorMessagePresent (b : ResponseBody) : Bool :=
  b.ErrorMessage != ""

def commonAttrHeaderName : String := "X-Amz-Firehose-Common-Attributes"
def requestIDHeaderName : String := "X-Amz-Firehose-Request-Id"
def accessKeyHeaderName : String := "X-Amz-Firehose-Access-Key"

def MethodPost : String := "POST"
def StatusOK : Int := 200
def StatusAccepted : Int := 202
def StatusBadRequest : Int := 400
def StatusMethodNotAllowed : Int := 405
def StatusInternalServerError : Int := 500

/-- Go `int64(time.Millisecond)`: the number of nanoseconds in a millisecond. -/
def Millisecond : Int := 1000000

/-! ## The response writer -/

/-- Go `http.ResponseWriter` as the handler sees it: the header map, the status
line once it has been sent, and the values encoded to the body so far. -/
structure ResponseWriter where
  header : HttpHeader
  status : Option Int
  written : List ResponseBody
deriving DecidableEq, Repr

/-- Go `w.WriteHeader(code)`: sends the status line; a second call changes nothing. -/
def ResponseWriter.WriteHeader (w : ResponseWriter) (code : Int) : ResponseWriter :=
  match w.status with
  | some _ => w
  | none => { w with status := some code }

/-- Go `json.NewEncoder(w).Encode(v)`: one `Write` of the encoded value; the first
`Write` sends status 200 when `WriteHeader` has not been called. -/
def ResponseWriter.Encode (w : ResponseWriter) (v : ResponseBody) : ResponseWriter :=
  let w1 := w.WriteHeader StatusOK
  { w1 with written := w1.written ++ [v] }

/-! ## The delivery endpoint (`cmd/firehose-endpoint/main.go`) -/

/-- Observable calls made by the handler, in the order they happen. -/
inductive Event where
  | jsonDecode (body : Bytes)
  | readRequest (data : Bytes)
  | clientDo (req : Request)
  | logLine (line : String)
deriving DecidableEq, Repr

/-- What the endpoint is linked against and configured with. -/
structure Env (σ : Type) where
  /-- package variable `AccessKey` -/
  AccessKey : String
  /-- call `json.NewDecoder(r.Body).Decode(&body)` -/
  jsonDecode : Bytes → Except GoError RequestBody
  /-- call `http.ReadRequest(bufio.NewReader(bytes.NewReader(data)))` -/
  readRequest : Bytes → Except GoError Request
  /-- call `http.DefaultClient.Do(req)`: the HTTP execution primitive -/
  clientDo : σ → Request → Except GoError Response × σ
  /-- call `time.Now().UnixNano()` -/
  unixNano : σ → Int

/-- The requests handed to `http.DefaultClient.Do`, in call order. -/
def doCalls : List Event → List Request
  | [] => []
  | Event.clientDo req :: rest => req :: doCalls rest
  | _ :: rest => doCalls rest

/-- The payloads handed to `http.ReadRequest`, in call order. -/
def readCalls : List Event → List Bytes
  | [] => []
  | Event.readRequest data :: rest => data :: readCalls rest
  | _ :: rest => readCalls rest

/-- The bodies handed to the JSON decoder, in call order. -/
def decodeCalls : List Event → List Bytes
  | [] => []
  | Event.jsonDecode body :: rest => body :: decodeCalls rest
  | _ :: rest => decodeCalls rest

/-- The comparison of `parseRequest` (line 63) that makes it return the error
`[error] invalid access key`. -/
def credentialRejected {σ : Type} (env : Env σ) (r : Request) : Bool :=
  r.Header.Get accessKeyHeaderName == env.AccessKey

/-- Function `parseRequest` of `main.go`, with the calls it makes. -/
def parseRequest {σ : Type} (env : Env σ) (r : Request) :
    Except GoError RequestBody × List Event :=
  let accessKey := r.Header.Get accessKeyHeaderName
  if accessKey == env.AccessKey then
    (Except.error (errorsNew "[error] invalid access key"), [])
  else
    match env.jsonDecode r.Body with
    | Except.error err =>
      (Except.error ⟨"[error] failed to decode request body: " ++ err.text⟩,
        [Event.jsonDecode r.Body])
    | Except.ok body => (Except.ok body, [Event.jsonDecode r.Body])

/-- Local state of one run of `handleRoot`. -/
structure St (σ : Type) where
  world : σ
  respBody : ResponseBody
  w : ResponseWriter
  trace : List Event

/-- The `for _, record := range reqBody.Records` loop of `handleRoot`. A `return`
in the loop body ends the recursion; `continue` and the end of the body go on with
the remaining records. -/
def replayRecords {σ : Type} (env : Env σ) : List Record → St σ → St σ
  | [], s => s
  | record :: rest, s =>
    let s1 := { s with trace := s.trace ++ [Event.readRequest record.Data] }
    match env.readRequest record.Data with
    | Except.error err =>
      replayRecords env rest
        { s1 with trace := s1.trace ++
            [Event.logLine ("[warn] failed to read request. skip " ++ err.text)] }
    | Except.ok req =>
      let out := env.clientDo s1.world req
      let s2 := { s1 with world := out.2, trace := s1.trace ++ [Event.clientDo req] }
      match out.1 with
      | Except.error err =>
        { s2 with respBody := { s2.respBody with ErrorMessage := err.text } }
      | Except.ok resp =>
        if resp.StatusCode ≥ 400 then
          let msg := "failed to request to " ++ req.URL ++ " with status " ++
            toString resp.StatusCode
          { s2 with respBody := { s2.respBody with ErrorMessage := msg } }
        else
          let line := "[info] succeeded request to " ++ req.URL ++ " with status " ++
            toString resp.StatusCode
          replayRecords env rest { s2 with trace := s2.trace ++ [Event.logLine line] }

/-- The clock reading in milliseconds, `time.Now().UnixNano() / int64(time.Millisecond)`
of line 80; the division of Go integers rounds toward zero. -/
def nowMillis {σ : Type} (env : Env σ) (world : σ) : Int :=
  (env.unixNano world).tdiv Millisecond

/-- The deferred function of `handleRoot`, run on every exit path. -/
def finish {σ : Type} (env : Env σ) (s : St σ) : St σ :=
  let respBody := { s.respBody with Timestamp := nowMillis env s.world }
  let trace :=
    if respBody.ErrorMessage ≠ "" then
      s.trace ++ [Event.logLine ("[error] error:" ++ respBody.ErrorMessage)]
    else s.trace
  { s with respBody := respBody, trace := trace, w := s.w.Encode respBody }

/-- State of `handleRoot` before its first `if`: the content type is added to the
header map (`Add` stores the key in canonical form) and `respBody` holds the
request identifier header. -/
def entryState {σ : Type} (w : ResponseWriter) (r : Request) (world : σ) : St σ :=
  { world := world,
    respBody := { RequestID := r.Header.Get requestIDHeaderName, Timestamp := 0,
                  ErrorMessage := "" },
    w := { w with header := w.header.Add "Content-Type" "application/json" },
    trace := [] }

/-- Function `handleRoot` of `main.go`. -/
def handleRoot {σ : Type} (env : Env σ) (w : ResponseWriter) (r : Request) (world : σ) :
    St σ :=
  let s0 : St σ := entryState w r world
  finish env <|
    if r.Method ≠ MethodPost then
      { s0 with
          w := s0.w.WriteHeader StatusMethodNotAllowed,
          respBody := { s0.respBody with ErrorMessage := "POST method required" } }
    else
      let parsed := parseRequest env r
      let s1 := { s0 with trace := s0.trace ++ parsed.2 }
      match parsed.1 with
      | Except.error err =>
        { s1 with
            w := s1.w.WriteHeader StatusBadRequest,
            respBody := { s1.respBody with ErrorMessage := err.text } }
      | Except.ok reqBody => replayRecords env reqBody.Records s1

/-- The requests that `http.ReadRequest` yields on the records it accepts, in
sequence order. -/
def parsedRequests {σ : Type} (env : Env σ) : List Record → List Request
  | [] => []
  | record :: rest =>
    match env.readRequest record.Data with
    | Except.error _ => parsedRequests env rest
    | Except.ok req => req :: parsedRequests env rest

/-- Every parseable record of the list replays without failure when the records are
taken in order from the given world: no transport error and every status below 400.
The value is the world reached after the last of them, `none` when a replay fails. -/
def replayAllOk {σ : Type} (env : Env σ) : List Record → σ → Option σ
  | [], world => some world
  | record :: rest, world =>
    match env.readRequest record.Data with
    | Except.error _ => replayAllOk env rest world
    | Except.ok req =>
      match (env.clientDo world req).1 with
      | Except.error _ => none
      | Except.ok resp =>
        if resp.StatusCode < 400 then replayAllOk env rest (env.clientDo world req).2
        else none

/-! ## The capture transport (`transport.go`) -/

/-- Type `RoundTripper` of `transport.go`; the Firehose client `svc` is the
`putRecord` field of the environment. -/
structure RoundTripper where
  streamName : String
deriving DecidableEq, Repr

/-- Observable calls made by `RoundTrip`, in the order they happen. -/
inductive TransportEvent where
  | dumpRequestOut (req : Request)
  | putRecord (streamName : String) (data : Bytes)
  | logDump (dump : Bytes)
  | logOutput (out : String)
deriving DecidableEq, Repr

/-- What the transport is linked against and configured with. -/
structure TransportEnv (σ : Type) where
  /-- package variable `Debug` -/
  Debug : Bool
  /-- call `httputil.DumpRequestOut(req, true)` -/
  dumpRequestOut : Request → Except GoError Bytes
  /-- call `t.svc.PutRecord` on a stream name and a record payload; the output is
  kept as the text it prints as -/
  putRecord : σ → String → Bytes → Except GoError String × σ
  /-- table `http.StatusText` -/
  statusText : Int → String

/-- The payloads submitted with `PutRecord`, in call order. -/
def putCalls : List TransportEvent → List (String × Bytes)
  | [] => []
  | TransportEvent.putRecord name data :: rest => (name, data) :: putCalls rest
  | _ :: rest => putCalls rest

/-- The two named results of `RoundTrip` (a nil pointer or nil error is `none`),
the world after the call and the calls made. -/
structure RoundTripResult (σ : Type) where
  resp : Option Response
  err : Option GoError
  world : σ
  trace : List TransportEvent

/-- The deferred function of `RoundTrip`, applied to the named results. -/
def roundTripDeferred {σ : Type} (env : TransportEnv σ) (resp : Response)
    (err : Option GoError) : Response :=
  let resp1 :=
    if err ≠ none then { resp with StatusCode := StatusInternalServerError } else resp
  { resp1 with Status := env.statusText resp1.StatusCode }

/-- The response `RoundTrip` allocates in its first statement. -/
def acceptedResponse (req : Request) : Response :=
  { Status := "", StatusCode := StatusAccepted, Proto := req.Proto,
    ProtoMajor := req.ProtoMajor, ProtoMinor := req.ProtoMinor,
    Header := ⟨[("content-type", ["text/plain"])]⟩ }

/-- Method `RoundTripper.RoundTrip` of `transport.go`. -/
def RoundTripper.RoundTrip {σ : Type} (env : TransportEnv σ) (t : RoundTripper)
    (req : Request) (world : σ) : RoundTripResult σ :=
  let resp : Response := acceptedResponse req
  let trace0 := [TransportEvent.dumpRequestOut req]
  match env.dumpRequestOut req with
  | Except.error err =>
    { resp := some (roundTripDeferred env resp (some err)), err := some err,
      world := world, trace := trace0 }
  | Except.ok dump =>
    let trace1 := if env.Debug then trace0 ++ [TransportEvent.logDump dump] else trace0
    let out := env.putRecord world t.streamName dump
    let trace2 := trace1 ++ [TransportEvent.putRecord t.streamName dump]
    match out.1 with
    | Except.error err =>
      { resp := some (roundTripDeferred env resp (some err)), err := some err,
        world := out.2, trace := trace2 }
    | Except.ok o =>
      let trace3 := if env.Debug then trace2 ++ [TransportEvent.logOutput o] else trace2
      { resp := some (roundTripDeferred env resp none), err := none,
        world := out.2, trace := trace3 }

/-! ## Concrete environments for evaluating the code -/

/-- Stub decoder: an empty body is a decoding error, otherwise every byte of the
body is one record holding that byte. -/
def demoDecode (body : Bytes) : Except GoError RequestBody :=
  match body with
  | [] => Except.error ⟨"EOF"⟩
  | _ => Except.ok
      { RequestID := "from-body", Timestamp := 1, Records := body.map (fun b => ⟨[b]⟩) }

/-- Stub request built by the stub record parser. -/
def demoRequest (url : String) : Request :=
  { Method := "GET", URL := url, Proto := "HTTP/1.1", ProtoMajor := 1, ProtoMinor := 1,
    Header := ⟨[("Host", ["x"])]⟩, Body := [] }

/-- Stub record parser: payloads `[1]` to `[5]` are requests, anything else is
malformed. -/
def demoReadRequest (data : Bytes) : Except GoError Request :=
  match data with
  | [1] => Except.ok (demoRequest "http://x/ok")
  | [2] => Except.ok (demoRequest "http://x/fail")
  | [3] => Except.ok (demoRequest "http://x/down")
  | [4] => Except.ok (demoRequest "http://x/399")
  | [5] => Except.ok (demoRequest "http://x/400")
  | _ => Except.error ⟨"malformed HTTP request"⟩

/-- Stub response with the given status code. -/
def demoResponse (code : Int) : Response :=
  { Status := "", StatusCode := code, Proto := "HTTP/1.1", ProtoMajor := 1,
    ProtoMinor := 1, Header := ⟨[]⟩ }

/-- Stub destination: `/ok` answers 200, `/399` answers 399, `/400` answers 400,
`/down` is unreachable, anything else answers 500. The world state counts the
calls. -/
def demoDo (world : Nat) (req : Request) : Except GoError Response × Nat :=
  if req.URL = "http://x/ok" then (Except.ok (demoResponse 200), world + 1)
  else if req.URL = "http://x/399" then (Except.ok (demoResponse 399), world + 1)
  else if req.URL = "http://x/400" then (Except.ok (demoResponse 400), world + 1)
  else if req.URL = "http://x/down" then
    (Except.error ⟨"dial tcp: connection refused"⟩, world + 1)
  else (Except.ok (demoResponse 500), world + 1)

/-- Stub environment; the clock reads 5 ms past the epoch plus one nanosecond per
call made. -/
def demoEnv : Env Nat :=
  { AccessKey := "secret", jsonDecode := demoDecode, readRequest := demoReadRequest,
    clientDo := demoDo, unixNano := fun world => 5000000 + world }

/-- A response writer on which nothing has been written yet. -/
def freshWriter : ResponseWriter := { header := ⟨[]⟩, status := none, written := [] }

/-- Stub callback with the given method, access-key header value and body. -/
def demoCallback (method key : String) (body : Bytes) : Request :=
  { Method := method, URL := "/", Proto := "HTTP/1.1", ProtoMajor := 1, ProtoMinor := 1,
    Header := ⟨[(accessKeyHeaderName, [key]), (requestIDHeaderName, ["req-1"])]⟩,
    Body := body }

/-- Stub transport environment: a request with an empty method cannot be dumped,
every other request dumps to the one byte `1`, and the stream `closed` rejects
every record. -/
def demoTransportEnv : TransportEnv Nat :=
  { Debug := true,
    dumpRequestOut := fun req =>
      if req.Method = "" then Except.error ⟨"net/http: invalid method"⟩
      else Except.ok [1],
    putRecord := fun world name _ =>
      if name = "closed" then (Except.error ⟨"ResourceNotFoundException"⟩, world + 1)
      else (Except.ok "RecordId: 1", world + 1),
    statusText := fun code =>
      if code = 202 then "Accepted"
      else if code = 500 then "Internal Server Error" else "" }

/-! ## Traces -/

theorem doCalls_append (a b : List Event) : doCalls (a ++ b) = doCalls a ++ doCalls b := by
  induction a with
  | nil => rfl
  | cons e rest ih => cases e <;> simp [doCalls, ih]

theorem readCalls_append (a b : List Event) :
    readCalls (a ++ b) = readCalls a ++ readCalls b := by
  induction a with
  | nil => rfl
  | cons e rest ih => cases e <;> simp [readCalls, ih]

theorem decodeCalls_append (a b : List Event) :
    decodeCalls (a ++ b) = decodeCalls a ++ decodeCalls b := by
  induction a with
  | nil => rfl
  | cons e rest ih => cases e <;> simp [decodeCalls, ih]

/-! ## The response writer and the deferred function -/

theorem writeHeader_fresh (w : ResponseWriter) (code : Int) (hw : w.status = none) :
    (w.WriteHeader code).status = some code := by
  simp [ResponseWriter.WriteHeader, hw]

theorem encode_status_sent (w : ResponseWriter) (v : ResponseBody) (code : Int)
    (hw : w.status = some code) : (w.Encode v).status = some code := by
  simp [ResponseWriter.Encode, ResponseWriter.WriteHeader, hw]

theorem encode_status_fresh (w : ResponseWriter) (v : ResponseBody) (hw : w.status = none) :
    (w.Encode v).status = some 200 := by
  simp [ResponseWriter.Encode, ResponseWriter.WriteHeader, hw, StatusOK]

theorem encode_written (w : ResponseWriter) (v : ResponseBody) :
    (w.Encode v).written = w.written ++ [v] := by
  unfold ResponseWriter.Encode ResponseWriter.WriteHeader
  cases h : w.status <;> simp

theorem writeHeader_written (w : ResponseWriter) (code : Int) :
    (w.WriteHeader code).written = w.written := by
  unfold ResponseWriter.WriteHeader
  cases h : w.status <;> simp

theorem finish_world {σ : Type} (env : Env σ) (s : St σ) : (finish env s).world = s.world :=
  rfl

theorem finish_requestID {σ : Type} (env : Env σ) (s : St σ) :
    (finish env s).respBody.RequestID = s.respBody.RequestID := rfl

theorem finish_errorMessage {σ : Type} (env : Env σ) (s : St σ) :
    (finish env s).respBody.ErrorMessage = s.respBody.ErrorMessage := rfl

theorem finish_timestamp {σ : Type} (env : Env σ) (s : St σ) :
    (finish env s).respBody.Timestamp = nowMillis env s.world := rfl

theorem finish_written {σ : Type} (env : Env σ) (s : St σ) :
    (finish env s).w.written = s.w.written ++ [(finish env s).respBody] := by
  simp [finish, encode_written]

theorem finish_status_sent {σ : Type} (env : Env σ) (s : St σ) (code : Int)
    (hw : s.w.status = some code) : (finish env s).w.status = some code := by
  simp [finish, encode_status_sent _ _ code hw]

theorem finish_status_fresh {σ : Type} (env : Env σ) (s : St σ) (hw : s.w.status = none) :
    (finish env s).w.status = some 200 := by
  simp [finish, encode_status_fresh _ _ hw]

theorem finish_doCalls {σ : Type} (env : Env σ) (s : St σ) :
    doCalls (finish env s).trace = doCalls s.trace := by
  unfold finish
  by_cases h : s.respBody.ErrorMessage = "" <;> simp [h, doCalls_append, doCalls]

theorem finish_readCalls {σ : Type} (env : Env σ) (s : St σ) :
    readCalls (finish env s).trace = readCalls s.trace := by
  unfold finish
  by_cases h : s.respBody.ErrorMessage = "" <;> simp [h, readCalls_append, readCalls]

theorem finish_decodeCalls {σ : Type} (env : Env σ) (s : St σ) :
    decodeCalls (finish env s).trace = decodeCalls s.trace := by
  unfold finish
  by_cases h : s.respBody.ErrorMessage = "" <;> simp [h, decodeCalls_append, decodeCalls]

/-! ## The replay loop -/

theorem replayRecords_w {σ : Type} (env : Env σ) (records : List Record) (s : St σ) :
    (replayRecords env records s).w = s.w := by
  induction records generalizing s with
  | nil => rfl
  | cons record rest ih =>
    unfold replayRecords
    simp only
    split
    · rw [ih]
    · split
      · rfl
      · split
        · rfl
        · rw [ih]

theorem replayRecords_requestID {σ : Type} (env : Env σ) (records : List Record) (s : St σ) :
    (replayRecords env records s).respBody.RequestID = s.respBody.RequestID := by
  induction records generalizing s with
  | nil => rfl
  | cons record rest ih =>
    unfold replayRecords
    simp only
    split
    · rw [ih]
    · split
      · rfl
      · split
        · rfl
        · rw [ih]

theorem replayRecords_decodeCalls {σ : Type} (env : Env σ) (records : List Record)
    (s : St σ) : decodeCalls (replayRecords env records s).trace = decodeCalls s.trace := by
  induction records generalizing s with
  | nil => rfl
  | cons record rest ih =>
    unfold replayRecords
    simp only
    split
    · rw [ih]; simp [decodeCalls_append, decodeCalls]
    · split
      · simp [decodeCalls_append, decodeCalls]
      · split
        · simp [decodeCalls_append, decodeCalls]
        · rw [ih]; simp [decodeCalls_append, decodeCalls]

/-- While every parseable record replays without failure the loop runs on: after the
records of `pre` it is at the records of `post`, in the world `replayAllOk` gives,
with the response body and the writer untouched, having parsed every record of
`pre` and executed the parseable ones in order. -/
theorem replayRecords_append_ok {σ : Type} (env : Env σ) (pre post : List Record)
    (s : St σ) (world1 : σ) (hpre : replayAllOk env pre s.world = some world1) :
    ∃ tr, replayRecords env (pre ++ post) s =
        replayRecords env post
          { world := world1, respBody := s.respBody, w := s.w, trace := s.trace ++ tr } ∧
      doCalls tr = parsedRequests env pre ∧
      readCalls tr = pre.map Record.Data ∧
      decodeCalls tr = [] := by
  induction pre generalizing s with
  | nil =>
    refine ⟨[], ?_, rfl, rfl, rfl⟩
    simp only [replayAllOk, Option.some.injEq] at hpre
    subst hpre
    simp
  | cons record rest ih =>
    simp only [replayAllOk] at hpre
    simp only [List.cons_append, parsedRequests, List.map_cons]
    rw [replayRecords]
    simp only
    cases hr : env.readRequest record.Data with
    | error err =>
      simp only [hr] at hpre ⊢
      obtain ⟨tr, h1, h2, h3, h4⟩ := ih
        { world := s.world, respBody := s.respBody, w := s.w,
          trace := s.trace ++ [Event.readRequest record.Data] ++
            [Event.logLine ("[warn] failed to read request. skip " ++ err.text)] } hpre
      refine ⟨[Event.readRequest record.Data,
        Event.logLine ("[warn] failed to read request. skip " ++ err.text)] ++ tr, ?_, ?_, ?_, ?_⟩
      · rw [h1]; simp [List.append_assoc]
      · simp [doCalls_append, doCalls, h2]
      · simp [readCalls_append, readCalls, h3]
      · simp [decodeCalls_append, decodeCalls, h4]
    | ok req =>
      simp only [hr] at hpre ⊢
      cases hd : (env.clientDo s.world req).1 with
      | error err => simp [hd] at hpre
      | ok resp =>
        simp only [hd] at hpre ⊢
        by_cases hcode : resp.StatusCode < 400
        · simp only [hcode, if_true] at hpre
          have hge : ¬ resp.StatusCode ≥ 400 := by omega
          simp only [hge, if_false]
          obtain ⟨tr, h1, h2, h3, h4⟩ := ih
            { world := (env.clientDo s.world req).2, respBody := s.respBody, w := s.w,
              trace := s.trace ++ [Event.readRequest record.Data] ++ [Event.clientDo req] ++
                [Event.logLine ("[info] succeeded request to " ++ req.URL ++
                  " with status " ++ toString resp.StatusCode)] } hpre
          refine ⟨[Event.readRequest record.Data, Event.clientDo req,
            Event.logLine ("[info] succeeded request to " ++ req.URL ++
              " with status " ++ toString resp.StatusCode)] ++ tr, ?_, ?_, ?_, ?_⟩
          · rw [h1]; simp [List.append_assoc]
          · simp [doCalls_append, doCalls, h2]
          · simp [readCalls_append, readCalls, h3]
          · simp [decodeCalls_append, decodeCalls, h4]
        · simp [hcode] at hpre

/-- One step of the loop on a parseable record whose replay fails: the request is
executed, the message is stored and the loop returns without looking at `rest`. -/
theorem replayRecords_fail {σ : Type} (env : Env σ) (record : Record) (rest : List Record)
    (s : St σ) (req : Request) (hparse : env.readRequest record.Data = Except.ok req)
    (hfail : (∃ err, (env.clientDo s.world req).1 = Except.error err) ∨
      (∃ resp, (env.clientDo s.world req).1 = Except.ok resp ∧ resp.StatusCode ≥ 400)) :
    let out := replayRecords env (record :: rest) s
    out.trace = s.trace ++ [Event.readRequest record.Data, Event.clientDo req] ∧
    out.world = (env.clientDo s.world req).2 ∧
    (∀ err, (env.clientDo s.world req).1 = Except.error err →
      out.respBody.ErrorMessage = err.text) ∧
    (∀ resp, (env.clientDo s.world req).1 = Except.ok resp →
      out.respBody.ErrorMessage =
        "failed to request to " ++ req.URL ++ " with status " ++ toString resp.StatusCode) := by
  intro out
  have hout : out = replayRecords env (record :: rest) s := rfl
  clear_value out
  rw [replayRecords] at hout
  simp only [hparse] at hout
  rcases hfail with ⟨err, he⟩ | ⟨resp, hr, hcode⟩
  · simp only [he] at hout
    subst hout
    refine ⟨by simp [List.append_assoc], rfl, ?_, ?_⟩
    · intro err2 h2
      rw [he] at h2
      cases h2
      rfl
    · intro resp h2
      rw [he] at h2
      cases h2
  · simp only [hr, hcode, if_true] at hout
    subst hout
    refine ⟨by simp [List.append_assoc], rfl, ?_, ?_⟩
    · intro err2 h2
      rw [hr] at h2
      cases h2
    · intro resp2 h2
      rw [hr] at h2
      cases h2
      rfl

/-! ## `parseRequest` and the three branches of `handleRoot` -/

theorem parseRequest_rejected {σ : Type} (env : Env σ) (r : Request)
    (hc : credentialRejected env r = true) :
    parseRequest env r = (Except.error (errorsNew "[error] invalid access key"), []) := by
  unfold credentialRejected at hc
  simp [parseRequest, hc]

theorem parseRequest_decode_error {σ : Type} (env : Env σ) (r : Request) (e : GoError)
    (hc : credentialRejected env r = false) (hd : env.jsonDecode r.Body = Except.error e) :
    parseRequest env r =
      (Except.error ⟨"[error] failed to decode request body: " ++ e.text⟩,
        [Event.jsonDecode r.Body]) := by
  unfold credentialRejected at hc
  simp [parseRequest, hc, hd]

theorem parseRequest_decode_ok {σ : Type} (env : Env σ) (r : Request) (body : RequestBody)
    (hc : credentialRejected env r = false) (hd : env.jsonDecode r.Body = Except.ok body) :
    parseRequest env r = (Except.ok body, [Event.jsonDecode r.Body]) := by
  unfold credentialRejected at hc
  simp [parseRequest, hc, hd]

theorem parseRequest_no_calls {σ : Type} (env : Env σ) (r : Request) :
    doCalls (parseRequest env r).2 = [] ∧ readCalls (parseRequest env r).2 = [] := by
  unfold parseRequest
  simp only
  split
  · exact ⟨rfl, rfl⟩
  · split <;> exact ⟨rfl, rfl⟩

theorem handleRoot_of_non_post {σ : Type} (env : Env σ) (w : ResponseWriter) (r : Request)
    (world : σ) (hm : r.Method ≠ MethodPost) :
    handleRoot env w r world =
      finish env
        { world := world,
          respBody := { RequestID := r.Header.Get requestIDHeaderName, Timestamp := 0,
                        ErrorMessage := "POST method required" },
          w := (entryState w r world).w.WriteHeader StatusMethodNotAllowed,
          trace := [] } := by
  simp [handleRoot, hm, entryState]

theorem handleRoot_of_parse_error {σ : Type} (env : Env σ) (w : ResponseWriter)
    (r : Request) (world : σ) (err : GoError) (hm : r.Method = MethodPost)
    (hp : (parseRequest env r).1 = Except.error err) :
    handleRoot env w r world =
      finish env
        { world := world,
          respBody := { RequestID := r.Header.Get requestIDHeaderName, Timestamp := 0,
                        ErrorMessage := err.text },
          w := (entryState w r world).w.WriteHeader StatusBadRequest,
          trace := (parseRequest env r).2 } := by
  simp [handleRoot, hm, hp, entryState]

theorem handleRoot_of_parse_ok {σ : Type} (env : Env σ) (w : ResponseWriter)
    (r : Request) (world : σ) (body : RequestBody) (hm : r.Method = MethodPost)
    (hp : (parseRequest env r).1 = Except.ok body) :
    handleRoot env w r world =
      finish env (replayRecords env body.Records
        { world := world,
          respBody := { RequestID := r.Header.Get requestIDHeaderName, Timestamp := 0,
                        ErrorMessage := "" },
          w := (entryState w r world).w,
          trace := (parseRequest env r).2 }) := by
  simp [handleRoot, hm, hp, entryState]

theorem entryState_status {σ : Type} (w : ResponseWriter) (r : Request) (world : σ) :
    (entryState w r world).w.status = w.status := rfl

theorem entryState_written {σ : Type} (w : ResponseWriter) (r : Request) (world : σ) :
    (entryState w r world).w.written = w.written := rfl

/-! ## Method validation -/

/-- C4: a callback whose method is not POST is answered with status 405 and the
message `POST method required`; the written envelope carries that message, and the
run decodes no body, parses no record and makes no call to the HTTP execution
primitive, whatever the headers and the body are. -/
theorem handleRoot_non_post {σ : Type} (env : Env σ) (w : ResponseWriter) (r : Request)
    (world : σ) (hw : w.status = none) (hm : r.Method ≠ MethodPost) :
    (handleRoot env w r world).w.status = some 405 ∧
    (handleRoot env w r world).respBody.ErrorMessage = "POST method required" ∧
    (handleRoot env w r world).w.written =
      w.written ++ [(handleRoot env w r world).respBody] ∧
    doCalls (handleRoot env w r world).trace = [] ∧
    readCalls (handleRoot env w r world).trace = [] ∧
    decodeCalls (handleRoot env w r world).trace = [] ∧
    (handleRoot env w r world).world = world := by
  rw [handleRoot_of_non_post env w r world hm]
  refine ⟨?_, rfl, ?_, ?_, ?_, ?_, rfl⟩
  · apply finish_status_sent
    exact writeHeader_fresh _ _ hw
  · rw [finish_written, writeHeader_written, entryState_written]
  · rw [finish_doCalls]; rfl
  · rw [finish_readCalls]; rfl
  · rw [finish_decodeCalls]; rfl

/-- The property C4 at a DELETE callback carrying a body and both headers. -/
theorem handleRoot_non_post_witness :
    (handleRoot demoEnv freshWriter (demoCallback "DELETE" "wrong" [1, 2]) 0).w.status
        = some 405 ∧
    (handleRoot demoEnv freshWriter (demoCallback "DELETE" "wrong" [1, 2]) 0).respBody.ErrorMessage
        = "POST method required" ∧
    doCalls (handleRoot demoEnv freshWriter (demoCallback "DELETE" "wrong" [1, 2]) 0).trace
        = [] :=
  have h := handleRoot_non_post demoEnv freshWriter (demoCallback "DELETE" "wrong" [1, 2]) 0
    rfl (by decide)
  ⟨h.1, h.2.1, h.2.2.2.1⟩

/-! ## Status of the response -/

/-- C5: on a writer that has sent nothing yet, the status of the response is 405 when
the method is not POST, 400 when the method is POST and `parseRequest` returns an
error, and 200 otherwise: the record sequence and the replay outcomes do not enter
the formula. `parseRequest` returns an error exactly when its credential comparison
rejects the callback or the body fails to decode. -/
theorem handleRoot_status {σ : Type} (env : Env σ) (w : ResponseWriter) (r : Request)
    (world : σ) (hw : w.status = none) :
    (handleRoot env w r world).w.status =
      some (if r.Method ≠ MethodPost then 405
        else match (parseRequest env r).1 with
          | Except.error _ => 400
          | Except.ok _ => 200) ∧
    ((∃ err, (parseRequest env r).1 = Except.error err) ↔
      (credentialRejected env r = true ∨ ∃ e, env.jsonDecode r.Body = Except.error e)) := by
  constructor
  · by_cases hm : r.Method = MethodPost
    · cases hp : (parseRequest env r).1 with
      | error err =>
        rw [handleRoot_of_parse_error env w r world err hm hp]
        simp only [hm, ne_eq, not_true_eq_false, if_false]
        apply finish_status_sent
        exact writeHeader_fresh _ _ hw
      | ok body =>
        rw [handleRoot_of_parse_ok env w r world body hm hp]
        simp only [hm, ne_eq, not_true_eq_false, if_false]
        apply finish_status_fresh
        rw [replayRecords_w]
        exact hw
    · rw [handleRoot_of_non_post env w r world hm]
      simp only [ne_eq, hm, not_false_eq_true, if_true]
      apply finish_status_sent
      exact writeHeader_fresh _ _ hw
  · cases hc : credentialRejected env r with
    | true => simp [parseRequest_rejected env r hc]
    | false =>
      cases hd : env.jsonDecode r.Body with
      | error e => simp [parseRequest_decode_error env r e hc hd]
      | ok body => simp [parseRequest_decode_ok env r body hc hd]

/-- The property C5 at a POST callback whose second record replays with status 500:
the response status is 200 and only the message reports the failure. -/
theorem handleRoot_status_witness :
    (handleRoot demoEnv freshWriter (demoCallback "POST" "wrong" [1, 2]) 0).w.status
        = some 200 ∧
    (handleRoot demoEnv freshWriter (demoCallback "POST" "wrong" [1, 2]) 0).respBody.ErrorMessage
        = "failed to request to http://x/fail with status 500" :=
  ⟨(handleRoot_status demoEnv freshWriter (demoCallback "POST" "wrong" [1, 2]) 0 rfl).1,
    by decide⟩

/-! ## The response envelope -/

theorem handleRoot_eq_finish {σ : Type} (env : Env σ) (w : ResponseWriter) (r : Request)
    (world : σ) :
    ∃ s, handleRoot env w r world = finish env s ∧ s.w.written = w.written ∧
      s.respBody.RequestID = r.Header.Get requestIDHeaderName := by
  by_cases hm : r.Method = MethodPost
  · cases hp : (parseRequest env r).1 with
    | error err =>
      exact ⟨_, handleRoot_of_parse_error env w r world err hm hp,
        by rw [writeHeader_written, entryState_written], rfl⟩
    | ok body =>
      exact ⟨_, handleRoot_of_parse_ok env w r world body hm hp,
        by rw [replayRecords_w, entryState_written],
        by rw [replayRecords_requestID]⟩
  · exact ⟨_, handleRoot_of_non_post env w r world hm,
      by rw [writeHeader_written, entryState_written], rfl⟩

theorem handleRoot_written {σ : Type} (env : Env σ) (w : ResponseWriter) (r : Request)
    (world : σ) :
    (handleRoot env w r world).w.written =
      w.written ++ [(handleRoot env w r world).respBody] := by
  obtain ⟨s, hs, hwritten, _⟩ := handleRoot_eq_finish env w r world
  rw [hs, finish_written, hwritten]

/-- C6: on every exit path of `handleRoot` the envelope that is written is the final
`respBody`; its `requestId` is the value of the incoming `X-Amz-Firehose-Request-Id`
header, whatever the body decodes to, and its `timestamp` is the clock reading in
milliseconds taken in the deferred function, after the replay. Hence the timestamp is
non-zero, and present under `omitempty`, whenever that reading is past the epoch. -/
theorem handleRoot_envelope {σ : Type} (env : Env σ) (w : ResponseWriter) (r : Request)
    (world : σ) :
    (handleRoot env w r world).w.written =
      w.written ++ [(handleRoot env w r world).respBody] ∧
    (handleRoot env w r world).respBody.RequestID = r.Header.Get requestIDHeaderName ∧
    (handleRoot env w r world).respBody.Timestamp =
      nowMillis env (handleRoot env w r world).world ∧
    (0 < nowMillis env (handleRoot env w r world).world →
      (handleRoot env w r world).respBody.Timestamp ≠ 0 ∧
      0 < (handleRoot env w r world).respBody.Timestamp ∧
      (handleRoot env w r world).respBody.timestampPresent = true) := by
  obtain ⟨s, hs, hwritten, hid⟩ := handleRoot_eq_finish env w r world
  rw [hs]
  refine ⟨?_, ?_, rfl, ?_⟩
  · rw [finish_written, hwritten]
  · rw [finish_requestID, hid]
  · intro hclock
    rw [finish_world] at hclock
    have hpos : 0 < (finish env s).respBody.Timestamp := by
      rw [finish_timestamp]
      exact hclock
    refine ⟨by omega, hpos, ?_⟩
    simp only [ResponseBody.timestampPresent, bne_iff_ne, ne_eq]
    omega

/-- The property C6 at a POST callback whose replay fails, with the clock reading
5 ms: the envelope echoes the header `req-1`, not the `from-body` of the decoded
body, and its timestamp is 5. -/
theorem handleRoot_envelope_witness :
    (handleRoot demoEnv freshWriter (demoCallback "POST" "wrong" [2]) 0).w.written =
      [{ RequestID := "req-1", Timestamp := 5,
         ErrorMessage := "failed to request to http://x/fail with status 500" }] ∧
    (handleRoot demoEnv freshWriter (demoCallback "POST" "wrong" [2]) 0).respBody.Timestamp
      ≠ 0 ∧
    (handleRoot demoEnv freshWriter
      (demoCallback "POST" "wrong" [2]) 0).respBody.timestampPresent = true :=
  have h := handleRoot_envelope demoEnv freshWriter (demoCallback "POST" "wrong" [2]) 0
  ⟨h.1, (h.2.2.2 (by decide)).1, (h.2.2.2 (by decide)).2.2⟩

/-! ## Malformed envelope -/

/-- C8: a POST callback that passes the credential comparison of `parseRequest` and
whose body fails to decode makes `parseRequest` return the error
`[error] failed to decode request body: ` followed by the message of the decoder;
`handleRoot` answers with status 400 and the text of that error as `errorMessage`, and
neither the record parser nor the HTTP execution primitive is called. -/
theorem handleRoot_malformed_envelope {σ : Type} (env : Env σ) (w : ResponseWriter)
    (r : Request) (world : σ) (e : GoError) (hw : w.status = none)
    (hm : r.Method = MethodPost) (hc : credentialRejected env r = false)
    (hd : env.jsonDecode r.Body = Except.error e) :
    (parseRequest env r).1 =
      Except.error ⟨"[error] failed to decode request body: " ++ e.text⟩ ∧
    (handleRoot env w r world).w.status = some 400 ∧
    (handleRoot env w r world).respBody.ErrorMessage =
      "[error] failed to decode request body: " ++ e.text ∧
    (handleRoot env w r world).w.written =
      w.written ++ [(handleRoot env w r world).respBody] ∧
    readCalls (handleRoot env w r world).trace = [] ∧
    doCalls (handleRoot env w r world).trace = [] ∧
    (handleRoot env w r world).world = world := by
  have hp := parseRequest_decode_error env r e hc hd
  have hp1 : (parseRequest env r).1 =
      Except.error ⟨"[error] failed to decode request body: " ++ e.text⟩ := by rw [hp]
  rw [handleRoot_of_parse_error env w r world _ hm hp1]
  refine ⟨hp1, ?_, rfl, ?_, ?_, ?_, rfl⟩
  · apply finish_status_sent
    exact writeHeader_fresh _ _ hw
  · rw [finish_written, writeHeader_written, entryState_written]
  · rw [finish_readCalls]
    exact (parseRequest_no_calls env r).2
  · rw [finish_doCalls]
    exact (parseRequest_no_calls env r).1

/-- The property C8 at a POST callback with an empty body, which the stub decoder
rejects with `EOF`. -/
theorem handleRoot_malformed_envelope_witness :
    (handleRoot demoEnv freshWriter (demoCallback "POST" "wrong" []) 0).w.status = some 400 ∧
    (handleRoot demoEnv freshWriter (demoCallback "POST" "wrong" []) 0).respBody.ErrorMessage
      = "[error] failed to decode request body: EOF" ∧
    doCalls (handleRoot demoEnv freshWriter (demoCallback "POST" "wrong" []) 0).trace = [] :=
  have h := handleRoot_malformed_envelope demoEnv freshWriter (demoCallback "POST" "wrong" [])
    0 ⟨"EOF"⟩ rfl rfl (by decide) rfl
  ⟨h.2.1, h.2.2.1, h.2.2.2.2.2.1⟩

/-! ## Order of method validation and the credential comparison -/

/-- C10, as amended: `handleRoot` validates the method before it calls
`parseRequest`. A callback whose method is not POST is answered with status 405 and
`POST method required` whether or not the credential comparison would reject it; a
POST callback that the credential comparison of `parseRequest` rejects is answered
with status 400 and `[error] invalid access key`, without decoding the body and
without any replay. -/
theorem handleRoot_method_before_credential {σ : Type} (env : Env σ) (w : ResponseWriter)
    (r : Request) (world : σ) (hw : w.status = none) :
    (r.Method ≠ MethodPost →
      (handleRoot env w r world).w.status = some 405 ∧
      (handleRoot env w r world).respBody.ErrorMessage = "POST method required") ∧
    (r.Method = MethodPost → credentialRejected env r = true →
      (handleRoot env w r world).w.status = some 400 ∧
      (handleRoot env w r world).respBody.ErrorMessage = "[error] invalid access key" ∧
      decodeCalls (handleRoot env w r world).trace = [] ∧
      readCalls (handleRoot env w r world).trace = [] ∧
      doCalls (handleRoot env w r world).trace = []) := by
  constructor
  · intro hm
    rw [handleRoot_of_non_post env w r world hm]
    refine ⟨?_, rfl⟩
    apply finish_status_sent
    exact writeHeader_fresh _ _ hw
  · intro hm hc
    have hp := parseRequest_rejected env r hc
    have hp1 : (parseRequest env r).1 =
        Except.error (errorsNew "[error] invalid access key") := by rw [hp]
    rw [handleRoot_of_parse_error env w r world _ hm hp1]
    refine ⟨?_, rfl, ?_, ?_, ?_⟩
    · apply finish_status_sent
      exact writeHeader_fresh _ _ hw
    · rw [finish_decodeCalls, hp]; rfl
    · rw [finish_readCalls, hp]; rfl
    · rw [finish_doCalls, hp]; rfl

/-- The amended C10 at two callbacks that the credential comparison rejects: the GET
one is answered 405, the POST one 400 with the authentication message. -/
theorem handleRoot_method_before_credential_witness :
    ((handleRoot demoEnv freshWriter (demoCallback "GET" "secret" [1]) 0).w.status = some 405 ∧
      (handleRoot demoEnv freshWriter (demoCallback "GET" "secret" [1]) 0).respBody.ErrorMessage
        = "POST method required") ∧
    ((handleRoot demoEnv freshWriter (demoCallback "POST" "secret" [1]) 0).w.status
        = some 400 ∧
      (handleRoot demoEnv freshWriter (demoCallback "POST" "secret" [1]) 0).respBody.ErrorMessage
        = "[error] invalid access key") :=
  have hget := (handleRoot_method_before_credential demoEnv freshWriter
    (demoCallback "GET" "secret" [1]) 0 rfl).1 (by decide)
  have hpost := (handleRoot_method_before_credential demoEnv freshWriter
    (demoCallback "POST" "secret" [1]) 0 rfl).2 rfl (by decide)
  ⟨hget, hpost.1, hpost.2.1⟩

/-- C10 as stated fails: a GET callback is answered with status 405 and
`POST method required`, not with the authentication failure, both when its access
key is the one the comparison of `parseRequest` rejects and when it is a key that
differs from the configured one. -/
theorem non_post_not_answered_with_credential_failure :
    credentialRejected demoEnv (demoCallback "GET" "secret" [1]) = true ∧
    (handleRoot demoEnv freshWriter (demoCallback "GET" "secret" [1]) 0).w.status = some 405 ∧
    (handleRoot demoEnv freshWriter (demoCallback "GET" "secret" [1]) 0).respBody.ErrorMessage
      = "POST method required" ∧
    (demoCallback "GET" "wrong" [1]).Header.Get accessKeyHeaderName ≠ demoEnv.AccessKey ∧
    (handleRoot demoEnv freshWriter (demoCallback "GET" "wrong" [1]) 0).w.status = some 405 ∧
    (handleRoot demoEnv freshWriter (demoCallback "GET" "wrong" [1]) 0).respBody.ErrorMessage
      = "POST method required" ∧
    (handleRoot demoEnv freshWriter (demoCallback "GET" "secret" [1]) 0).w.status ≠ some 400 ∧
    (handleRoot demoEnv freshWriter (demoCallback "GET" "secret" [1]) 0).respBody.ErrorMessage
      ≠ "[error] invalid access key" := by
  decide

/-! ## The credential comparison -/

/-- C2 at a failing input: a POST callback whose access key `wrong` differs from the
configured `secret` passes `parseRequest`, is answered with status 200 and its record
is replayed, while the callback that carries the configured key is the one rejected
with `[error] invalid access key`. -/
theorem mismatched_key_is_replayed :
    (demoCallback "POST" "wrong" [1]).Header.Get accessKeyHeaderName ≠ demoEnv.AccessKey ∧
    (parseRequest demoEnv (demoCallback "POST" "wrong" [1])).1 =
      Except.ok { RequestID := "from-body", Timestamp := 1, Records := [⟨[1]⟩] } ∧
    (handleRoot demoEnv freshWriter (demoCallback "POST" "wrong" [1]) 0).w.status = some 200 ∧
    doCalls (handleRoot demoEnv freshWriter (demoCallback "POST" "wrong" [1]) 0).trace =
      [demoRequest "http://x/ok"] ∧
    (demoCallback "POST" "secret" [1]).Header.Get accessKeyHeaderName = demoEnv.AccessKey ∧
    (parseRequest demoEnv (demoCallback "POST" "secret" [1])).1 =
      Except.error (errorsNew "[error] invalid access key") ∧
    (handleRoot demoEnv freshWriter (demoCallback "POST" "secret" [1]) 0).w.status
      = some 400 :=
  ⟨by decide, rfl, by decide, by decide, by decide, rfl, by decide⟩

/-! ## Fail-fast replay -/

theorem replayRecords_trace_extends {σ : Type} (env : Env σ) (records : List Record)
    (s : St σ) : ∃ tr, (replayRecords env records s).trace = s.trace ++ tr := by
  induction records generalizing s with
  | nil => exact ⟨[], by simp [replayRecords]⟩
  | cons record rest ih =>
    unfold replayRecords
    simp only
    split
    · obtain ⟨tr, h⟩ := ih { s with trace := s.trace ++ [Event.readRequest record.Data] ++
        [Event.logLine ("[warn] failed to read request. skip " ++ (_ : GoError).text)] }
      exact ⟨_, by rw [h, List.append_assoc, List.append_assoc]⟩
    · split
      · exact ⟨_, List.append_assoc _ _ _⟩
      · split
        · exact ⟨_, List.append_assoc _ _ _⟩
        · obtain ⟨tr, h⟩ := ih _
          exact ⟨_, by rw [h, List.append_assoc, List.append_assoc, List.append_assoc]⟩

/-- C1: in a POST callback that passes `parseRequest`, let the record sequence be
`pre ++ record :: post`, where every parseable record of `pre` replays without
failure, `record` parses to `req`, and the replay of `req` returns a transport error
or a status of 400 or more. Then the requests passed to the HTTP execution primitive
are the parseable records of `pre` followed by `req` and nothing else, no record of
`post` is even parsed, and the written envelope has `errorMessage` equal to the text
of the transport error, respectively to
`failed to request to <URL> with status <code>`. -/
theorem handleRoot_fail_fast {σ : Type} (env : Env σ) (w : ResponseWriter) (r : Request)
    (world : σ) (body : RequestBody) (pre post : List Record) (record : Record)
    (req : Request) (world1 : σ)
    (hm : r.Method = MethodPost)
    (hp : (parseRequest env r).1 = Except.ok body)
    (hrecords : body.Records = pre ++ record :: post)
    (hpre : replayAllOk env pre world = some world1)
    (hparse : env.readRequest record.Data = Except.ok req)
    (hfail : (∃ err, (env.clientDo world1 req).1 = Except.error err) ∨
      (∃ resp, (env.clientDo world1 req).1 = Except.ok resp ∧ resp.StatusCode ≥ 400)) :
    doCalls (handleRoot env w r world).trace = parsedRequests env pre ++ [req] ∧
    readCalls (handleRoot env w r world).trace = (pre ++ [record]).map Record.Data ∧
    (∀ err, (env.clientDo world1 req).1 = Except.error err →
      (handleRoot env w r world).respBody.ErrorMessage = err.text) ∧
    (∀ resp, (env.clientDo world1 req).1 = Except.ok resp →
      (handleRoot env w r world).respBody.ErrorMessage =
        "failed to request to " ++ req.URL ++ " with status " ++ toString resp.StatusCode) ∧
    (handleRoot env w r world).w.written =
      w.written ++ [(handleRoot env w r world).respBody] ∧
    (handleRoot env w r world).world = (env.clientDo world1 req).2 := by
  have hwritten := handleRoot_written env w r world
  refine ⟨?_, ?_, ?_, ?_, hwritten, ?_⟩ <;>
    rw [handleRoot_of_parse_ok env w r world body hm hp, hrecords]
  all_goals
    obtain ⟨tr, hrun, hdo, hread, _⟩ := replayRecords_append_ok env pre (record :: post)
      { world := world,
        respBody := { RequestID := r.Header.Get requestIDHeaderName, Timestamp := 0,
                      ErrorMessage := "" },
        w := (entryState w r world).w,
        trace := (parseRequest env r).2 } world1 hpre
    obtain ⟨htrace, hworld, herr, hresp⟩ := replayRecords_fail env record post
      { world := world1,
        respBody := { RequestID := r.Header.Get requestIDHeaderName, Timestamp := 0,
                      ErrorMessage := "" },
        w := (entryState w r world).w,
        trace := (parseRequest env r).2 ++ tr } req hparse hfail
    rw [hrun]
  · rw [finish_doCalls, htrace]
    simp [doCalls_append, doCalls, hdo, (parseRequest_no_calls env r).1]
  · rw [finish_readCalls, htrace]
    simp [readCalls_append, readCalls, hread, (parseRequest_no_calls env r).2]
  · intro err he
    rw [finish_errorMessage]
    exact herr err he
  · intro resp he
    rw [finish_errorMessage]
    exact hresp resp he
  · rw [finish_world]
    exact hworld

/-- The property C1 at the batch malformed, 399, 400, 200: the record answered 399
is not a failure, the record answered 400 is, and the record after it is not
replayed. -/
theorem handleRoot_fail_fast_witness :
    doCalls (handleRoot demoEnv freshWriter (demoCallback "POST" "wrong" [0, 4, 5, 1]) 0).trace
      = [demoRequest "http://x/399", demoRequest "http://x/400"] ∧
    readCalls (handleRoot demoEnv freshWriter (demoCallback "POST" "wrong" [0, 4, 5, 1]) 0).trace
      = [[0], [4], [5]] ∧
    (handleRoot demoEnv freshWriter
      (demoCallback "POST" "wrong" [0, 4, 5, 1]) 0).respBody.ErrorMessage
      = "failed to request to http://x/400 with status 400" :=
  have h := handleRoot_fail_fast demoEnv freshWriter (demoCallback "POST" "wrong" [0, 4, 5, 1]) 0
    { RequestID := "from-body", Timestamp := 1, Records := [⟨[0]⟩, ⟨[4]⟩, ⟨[5]⟩, ⟨[1]⟩] }
    [⟨[0]⟩, ⟨[4]⟩] [⟨[1]⟩] ⟨[5]⟩ (demoRequest "http://x/400") 1
    rfl rfl rfl rfl rfl (Or.inr ⟨demoResponse 400, rfl, by decide⟩)
  ⟨h.1, h.2.1, h.2.2.2.1 (demoResponse 400) rfl⟩

/-! ## Malformed records -/

/-- C3: in a POST callback that passes `parseRequest`,
(1) a record that fails to parse only adds the parser call and a warning line to the
trace: the loop goes on with the remaining records from the same world, response body
and writer, so no request is executed for it and `errorMessage` is unchanged;
(2) if every parseable record of an initial part `pre` of the batch replays without
failure, then the executed requests begin with the parseable records of `pre`, in
sequence order;
(3) if that holds of the whole batch, the executed requests are exactly its parseable
records in order and `errorMessage` is empty;
(4) a batch of one malformed record followed by one record that parses to `req` and
replays with a status below 400 executes exactly `req` and ends with an empty
`errorMessage`. -/
theorem handleRoot_skips_malformed {σ : Type} (env : Env σ) (w : ResponseWriter)
    (r : Request) (world : σ) (body : RequestBody)
    (hm : r.Method = MethodPost)
    (hp : (parseRequest env r).1 = Except.ok body) :
    (∀ (record : Record) (rest : List Record) (s : St σ) (err : GoError),
      env.readRequest record.Data = Except.error err →
      replayRecords env (record :: rest) s =
        replayRecords env rest
          { world := s.world, respBody := s.respBody, w := s.w,
            trace := s.trace ++ [Event.readRequest record.Data,
              Event.logLine ("[warn] failed to read request. skip " ++ err.text)] }) ∧
    (∀ (pre post : List Record) (world1 : σ),
      body.Records = pre ++ post → replayAllOk env pre world = some world1 →
      ∃ tail, doCalls (handleRoot env w r world).trace = parsedRequests env pre ++ tail) ∧
    (∀ world1 : σ, replayAllOk env body.Records world = some world1 →
      doCalls (handleRoot env w r world).trace = parsedRequests env body.Records ∧
      readCalls (handleRoot env w r world).trace = body.Records.map Record.Data ∧
      (handleRoot env w r world).respBody.ErrorMessage = "" ∧
      (handleRoot env w r world).world = world1) ∧
    (∀ (bad good : Record) (err : GoError) (req : Request) (resp : Response),
      body.Records = [bad, good] →
      env.readRequest bad.Data = Except.error err →
      env.readRequest good.Data = Except.ok req →
      (env.clientDo world req).1 = Except.ok resp → resp.StatusCode < 400 →
      doCalls (handleRoot env w r world).trace = [req] ∧
      (handleRoot env w r world).respBody.ErrorMessage = "" ∧
      (handleRoot env w r world).w.written =
        w.written ++ [(handleRoot env w r world).respBody]) := by
  have hwhole : ∀ world1 : σ, replayAllOk env body.Records world = some world1 →
      doCalls (handleRoot env w r world).trace = parsedRequests env body.Records ∧
      readCalls (handleRoot env w r world).trace = body.Records.map Record.Data ∧
      (handleRoot env w r world).respBody.ErrorMessage = "" ∧
      (handleRoot env w r world).world = world1 := by
    intro world1 hall
    rw [handleRoot_of_parse_ok env w r world body hm hp]
    obtain ⟨tr, hrun, hdo, hread, _⟩ := replayRecords_append_ok env body.Records []
      { world := world,
        respBody := { RequestID := r.Header.Get requestIDHeaderName, Timestamp := 0,
                      ErrorMessage := "" },
        w := (entryState w r world).w,
        trace := (parseRequest env r).2 } world1 hall
    rw [List.append_nil] at hrun
    rw [hrun]
    refine ⟨?_, ?_, rfl, rfl⟩
    · rw [finish_doCalls]
      simp [replayRecords, doCalls_append, hdo, (parseRequest_no_calls env r).1]
    · rw [finish_readCalls]
      simp [replayRecords, readCalls_append, hread, (parseRequest_no_calls env r).2]
  refine ⟨?_, ?_, hwhole, ?_⟩
  · intro record rest s err hparse
    rw [replayRecords]
    simp only [hparse, List.append_assoc, List.singleton_append]
  · intro pre post world1 hrecords hpre
    rw [handleRoot_of_parse_ok env w r world body hm hp, hrecords]
    obtain ⟨tr, hrun, hdo, _, _⟩ := replayRecords_append_ok env pre post
      { world := world,
        respBody := { RequestID := r.Header.Get requestIDHeaderName, Timestamp := 0,
                      ErrorMessage := "" },
        w := (entryState w r world).w,
        trace := (parseRequest env r).2 } world1 hpre
    obtain ⟨tr2, hext⟩ := replayRecords_trace_extends env post
      { world := world1,
        respBody := { RequestID := r.Header.Get requestIDHeaderName, Timestamp := 0,
                      ErrorMessage := "" },
        w := (entryState w r world).w,
        trace := (parseRequest env r).2 ++ tr }
    refine ⟨doCalls tr2, ?_⟩
    rw [finish_doCalls, hrun, hext]
    simp [doCalls_append, hdo, (parseRequest_no_calls env r).1]
  · intro bad good err req resp hrecords hbad hgood hdo hcode
    have hall : replayAllOk env body.Records world = some (env.clientDo world req).2 := by
      rw [hrecords]
      simp [replayAllOk, hbad, hgood, hdo, hcode]
    obtain ⟨h1, _, h3, _⟩ := hwhole _ hall
    refine ⟨?_, h3, handleRoot_written env w r world⟩
    rw [h1, hrecords]
    simp [parsedRequests, hbad, hgood]

/-- The property C3 at the batch of one malformed record followed by one record that
replays with status 200. -/
theorem handleRoot_skips_malformed_witness :
    doCalls (handleRoot demoEnv freshWriter (demoCallback "POST" "wrong" [0, 1]) 0).trace
      = [demoRequest "http://x/ok"] ∧
    (handleRoot demoEnv freshWriter (demoCallback "POST" "wrong" [0, 1]) 0).respBody.ErrorMessage
      = "" ∧
    (handleRoot demoEnv freshWriter (demoCallback "POST" "wrong" [0, 1]) 0).w.written
      = [{ RequestID := "req-1", Timestamp := 5, ErrorMessage := "" }] :=
  have h := (handleRoot_skips_malformed demoEnv freshWriter
    (demoCallback "POST" "wrong" [0, 1]) 0
    { RequestID := "from-body", Timestamp := 1, Records := [⟨[0]⟩, ⟨[1]⟩] } rfl rfl).2.2.2
    ⟨[0]⟩ ⟨[1]⟩ ⟨"malformed HTTP request"⟩ (demoRequest "http://x/ok") (demoResponse 200)
    rfl rfl rfl rfl (by decide)
  ⟨h.1, h.2.1, h.2.2⟩

/-! ## Status selection of the capture transport -/

theorem RoundTrip_of_dump_error {σ : Type} (env : TransportEnv σ) (t : RoundTripper)
    (req : Request) (world : σ) (e : GoError)
    (hdump : env.dumpRequestOut req = Except.error e) :
    t.RoundTrip env req world =
      { resp := some (roundTripDeferred env (acceptedResponse req) (some e)), err := some e,
        world := world, trace := [TransportEvent.dumpRequestOut req] } := by
  simp [RoundTripper.RoundTrip, hdump]

theorem RoundTrip_of_put_error {σ : Type} (env : TransportEnv σ) (t : RoundTripper)
    (req : Request) (world : σ) (dump : Bytes) (e : GoError)
    (hdump : env.dumpRequestOut req = Except.ok dump)
    (hput : (env.putRecord world t.streamName dump).1 = Except.error e) :
    t.RoundTrip env req world =
      { resp := some (roundTripDeferred env (acceptedResponse req) (some e)), err := some e,
        world := (env.putRecord world t.streamName dump).2,
        trace := (if env.Debug then
            [TransportEvent.dumpRequestOut req] ++ [TransportEvent.logDump dump]
          else [TransportEvent.dumpRequestOut req]) ++
          [TransportEvent.putRecord t.streamName dump] } := by
  simp [RoundTripper.RoundTrip, hdump, hput]

theorem RoundTrip_of_put_ok {σ : Type} (env : TransportEnv σ) (t : RoundTripper)
    (req : Request) (world : σ) (dump : Bytes) (o : String)
    (hdump : env.dumpRequestOut req = Except.ok dump)
    (hput : (env.putRecord world t.streamName dump).1 = Except.ok o) :
    t.RoundTrip env req world =
      { resp := some (roundTripDeferred env (acceptedResponse req) none), err := none,
        world := (env.putRecord world t.streamName dump).2,
        trace := if env.Debug then
            (if env.Debug then
                [TransportEvent.dumpRequestOut req] ++ [TransportEvent.logDump dump]
              else [TransportEvent.dumpRequestOut req]) ++
              [TransportEvent.putRecord t.streamName dump] ++ [TransportEvent.logOutput o]
          else
            (if env.Debug then
                [TransportEvent.dumpRequestOut req] ++ [TransportEvent.logDump dump]
              else [TransportEvent.dumpRequestOut req]) ++
              [TransportEvent.putRecord t.streamName dump] } := by
  simp [RoundTripper.RoundTrip, hdump, hput]

/-- C7: `RoundTrip` returns a response for every request, with `Proto`, `ProtoMajor`
and `ProtoMinor` of the request. When the dump fails, that error is the returned error,
the status code is 500 and `PutRecord` is not called. When the dump succeeds,
`PutRecord` is called once with the stream name and the dump as payload; if it fails,
its error is the returned error and the status code is 500, and if it succeeds the
returned error is nil and the status code is 202. So the status code is 500 exactly
when the returned error is not nil, and 202 otherwise. -/
theorem RoundTrip_status {σ : Type} (env : TransportEnv σ) (t : RoundTripper)
    (req : Request) (world : σ) :
    ∃ resp, (t.RoundTrip env req world).resp = some resp ∧
      resp.Proto = req.Proto ∧ resp.ProtoMajor = req.ProtoMajor ∧
      resp.ProtoMinor = req.ProtoMinor ∧
      (match env.dumpRequestOut req with
        | Except.error e =>
          (t.RoundTrip env req world).err = some e ∧ resp.StatusCode = 500 ∧
          putCalls (t.RoundTrip env req world).trace = []
        | Except.ok dump =>
          putCalls (t.RoundTrip env req world).trace = [(t.streamName, dump)] ∧
          match (env.putRecord world t.streamName dump).1 with
          | Except.error e =>
            (t.RoundTrip env req world).err = some e ∧ resp.StatusCode = 500
          | Except.ok _ =>
            (t.RoundTrip env req world).err = none ∧ resp.StatusCode = 202) ∧
      (resp.StatusCode = 500 ↔ (t.RoundTrip env req world).err ≠ none) ∧
      ((t.RoundTrip env req world).err = none → resp.StatusCode = 202) ∧
      resp.Status = env.statusText resp.StatusCode := by
  cases hdump : env.dumpRequestOut req with
  | error e =>
    rw [RoundTrip_of_dump_error env t req world e hdump]
    refine ⟨roundTripDeferred env (acceptedResponse req) (some e), rfl, rfl, rfl, rfl,
      ⟨rfl, rfl, rfl⟩, ?_, ?_, rfl⟩
    · simp [roundTripDeferred, StatusInternalServerError]
    · intro h
      cases h
  | ok dump =>
    simp only
    cases hput : (env.putRecord world t.streamName dump).1 with
    | error e =>
      rw [RoundTrip_of_put_error env t req world dump e hdump hput]
      refine ⟨roundTripDeferred env (acceptedResponse req) (some e), rfl, rfl, rfl, rfl,
        ⟨?_, rfl, rfl⟩, ?_, ?_, rfl⟩
      · cases env.Debug <;> simp [putCalls]
      · simp [roundTripDeferred, StatusInternalServerError]
      · intro h
        cases h
    | ok o =>
      rw [RoundTrip_of_put_ok env t req world dump o hdump hput]
      refine ⟨roundTripDeferred env (acceptedResponse req) none, rfl, rfl, rfl, rfl,
        ⟨?_, rfl, rfl⟩, ?_, ?_, rfl⟩
      · cases env.Debug <;> simp [putCalls]
      · simp [roundTripDeferred, acceptedResponse, StatusAccepted]
      · intro _
        rfl

/-- Three runs of `RoundTrip` on the stub transport: an accepted request, a request
that cannot be dumped, and a stream that rejects the record. -/
theorem RoundTrip_demo :
    ((RoundTripper.mk "http-out").RoundTrip demoTransportEnv
        (demoRequest "http://example.com/hello") 0).resp =
      some { Status := "Accepted", StatusCode := 202, Proto := "HTTP/1.1", ProtoMajor := 1,
             ProtoMinor := 1, Header := ⟨[("content-type", ["text/plain"])]⟩ } ∧
    ((RoundTripper.mk "http-out").RoundTrip demoTransportEnv
        (demoRequest "http://example.com/hello") 0).err = none ∧
    putCalls ((RoundTripper.mk "http-out").RoundTrip demoTransportEnv
        (demoRequest "http://example.com/hello") 0).trace = [("http-out", [1])] ∧
    ((RoundTripper.mk "http-out").RoundTrip demoTransportEnv
        { demoRequest "http://example.com/hello" with Method := "" } 0).resp =
      some { Status := "Internal Server Error", StatusCode := 500, Proto := "HTTP/1.1",
             ProtoMajor := 1, ProtoMinor := 1,
             Header := ⟨[("content-type", ["text/plain"])]⟩ } ∧
    putCalls ((RoundTripper.mk "http-out").RoundTrip demoTransportEnv
        { demoRequest "http://example.com/hello" with Method := "" } 0).trace = [] ∧
    ((RoundTripper.mk "closed").RoundTrip demoTransportEnv
        (demoRequest "http://example.com/hello") 0).err =
      some ⟨"ResourceNotFoundException"⟩ := by
  decide

end TransportFirehose
